import Mathlib

/-!
Shallow embedding of `src/location.c` (Bison's location tracking core).

Machine integers: `line` and `column` are C `int`s; they are modelled as
`Int` with the constant `INT_MAX = 2^31 - 1` made explicit wherever the code
mentions it.  `size_t` quantities are modelled as `Nat`.  The byte buffers
handled by the code are modelled as `List Char`.

External collaborators are parameters:
  * `mbsnwidth` (display width of a byte segment) is an arbitrary function
    `w : List Char → Nat` (with flags 0 the real function never returns a
    negative value);
  * `quotearg_n_style` (file-name quoting) is an arbitrary function
    `q : Option String → String`;
  * the diagnostic sink: `complain` calls are recorded as boolean flags, the
    `err_*` output primitives of the caret printer are recorded as a list of
    `OutEvent`s.
-/

/-- `INT_MAX` for the 32-bit `int` type used by the code. -/
def INT_MAX : Int := 2147483647

/-- A `boundary`: a point in a source file (`location.h`).  The interned
file name (`uniqstr`) is `none` when the `char const *` is null; interning
makes pointer equality agree with string equality. -/
structure boundary where
  file : Option String
  line : Int
  column : Int
deriving DecidableEq, Repr

/-- A `location`: a pair of boundaries; `end` is a Lean keyword, so the
second field is called `end_`. -/
structure location where
  start : boundary
  end_ : boundary
deriving DecidableEq, Repr

/-- `add_column_width (column, buf, bufsize)` from `location.c`:
if `buf` is null, add `bufsize` to `column`; otherwise add
`mbsnwidth (buf, bufsize, 0)`; return `INT_MAX` when an overflow occurs or
might occur.  `w` stands for `mbsnwidth`; at every call site with a non-null
`buf` the code passes `bufsize = ` length of the segment, so the `some`
branch receives the segment itself and its length. -/
def add_column_width (w : List Char → Nat) (column : Int)
    (buf : Option (List Char)) (bufsize : Nat) : Int :=
  let remaining_columns : Nat := (INT_MAX - column).toNat
  match buf with
  | some b =>
    if INT_MAX / 2 ≤ (bufsize : Int) then INT_MAX
    else
      let width : Nat := w b
      if width ≤ remaining_columns then column + width else INT_MAX
  | none =>
    let width : Nat := bufsize
    if width ≤ remaining_columns then column + width else INT_MAX

/-- The `for (p = token; p < lim; p++) switch (*p) ...` loop of
`location_compute`.  The state is `(line, column, pending)` where `pending`
is the segment `token[p0 .. p)` accumulated since the last `'\n'`/`'\t'`
(the code keeps it as the pointer `p0`; here it is the explicit list, whose
length is the `p - p0` the code passes to `add_column_width`). -/
def location_compute_loop (w : List Char → Nat) :
    List Char → Int → Int → List Char → Int × Int × List Char
  | [], line, column, p0 => (line, column, p0)
  | p :: rest, line, column, p0 =>
    if p = '\n' then
      location_compute_loop w rest (line + if line < INT_MAX then 1 else 0) 1 []
    else if p = '\t' then
      let column1 := add_column_width w column (some p0) p0.length
      let column2 :=
        add_column_width w column1 none ((8 - ((column1 - 1) % 8)).toNat)
      location_compute_loop w rest line column2 []
    else
      location_compute_loop w rest line column (p0 ++ [p])

/-- Result of `location_compute`: the written `*loc`, the updated `*cur`,
and whether each of the two `complain (..., "... overflow")` calls ran. -/
structure compute_result where
  loc : location
  cur : boundary
  line_overflow_warned : Bool
  column_overflow_warned : Bool
deriving DecidableEq, Repr

/-- `location_compute (loc, cur, token, size)` from `location.c`: sets
`loc->start` to the incoming cursor, scans the token updating `line` and
`column`, flushes the final pending segment, stores the updated cursor into
`loc->end` and `*cur`, and reports the two overflow warnings. -/
def location_compute (w : List Char → Nat) (cur : boundary)
    (token : List Char) : compute_result :=
  let start := cur
  let s := location_compute_loop w token cur.line cur.column []
  let line := s.1
  let column := add_column_width w s.2.1 (some s.2.2) s.2.2.length
  let newcur : boundary := { file := cur.file, line := line, column := column }
  { loc := { start := start, end_ := newcur }
    cur := newcur
    line_overflow_warned := decide (line = INT_MAX ∧ start.line ≠ INT_MAX)
    column_overflow_warned := decide (column = INT_MAX ∧ start.column ≠ INT_MAX) }

/-- The `end_col` conversion at the top of `location_print`:
`int end_col = 0 != loc.end.column ? loc.end.column - 1 : 0;`. -/
def print_end_col (loc : location) : Int :=
  if loc.end_.column ≠ 0 then loc.end_.column - 1 else 0

/-- `location_print (loc)` from `location.c`, with the text written through
`err_printf` collected into the returned string (the `unsigned` result of
the C function is its length).  `q` stands for
`quotearg_n_style (3, escape_quoting_style, ·)`. -/
def location_print (q : Option String → String) (loc : location) : String :=
  let end_col := print_end_col loc
  let res := q loc.start.file
  let res :=
    if 0 ≤ loc.start.line then
      res ++ ":" ++ toString loc.start.line ++
        (if 0 ≤ loc.start.column then "." ++ toString loc.start.column else "")
    else res
  if loc.start.file ≠ loc.end_.file then
    res ++ "-" ++ q loc.end_.file ++
      (if 0 ≤ loc.end_.line then
        ":" ++ toString loc.end_.line ++
          (if 0 ≤ end_col then "." ++ toString end_col else "")
      else "")
  else if 0 ≤ loc.end_.line then
    if loc.start.line < loc.end_.line then
      res ++ "-" ++ toString loc.end_.line ++
        (if 0 ≤ end_col then "." ++ toString end_col else "")
    else if 0 ≤ end_col ∧ loc.start.column < end_col then
      res ++ "-" ++ toString end_col
    else res
  else res

/-- One output action of the caret printer (`err_putc`, `err_printf`,
`err_begin_use_class`, `err_end_use_class`). -/
inductive OutEvent where
  | putc (c : Char)
  | str (s : String)
  | begin_use_class (style : String)
  | end_use_class (style : String)
deriving DecidableEq, Repr

/-- `struct caret_info` from `location.c`: the cached open file (its
contents, `none` when no handle is cached), the last visited line and the
byte offset of that line's start. -/
structure caret_info_t where
  source : Option (List Char)
  line : Nat
  offset : Nat
deriving DecidableEq, Repr

/-- The initial value `{ NULL, 1, 0 }` of the static `caret_info`. -/
def caret_info_init : caret_info_t := { source := none, line := 1, offset := 0 }

/-- One iteration of the seek loop
`caret_info.line += getc (caret_info.source) == '\n';`:
`getc` at position `pos` returns the character there (advancing the
position) or `EOF` (leaving the position unchanged);
`EOF == '\n'` is false, so at end of file the state no longer changes. -/
def caret_seek_step (content : List Char) (st : Nat × Nat) : Nat × Nat :=
  match content.get? st.1 with
  | some c => (st.1 + 1, st.2 + (if c = '\n' then 1 else 0))
  | none => st

/-- The loop `while (caret_info.line < loc.start.line) ...` of
`location_caret`, made total with an explicit iteration budget: `none`
means the budget was exhausted with the loop guard still true (the C code
would still be running). -/
def caret_seek (content : List Char) (target : Int) :
    Nat → Nat × Nat → Option (Nat × Nat)
  | 0, st => if (st.2 : Int) < target then none else some st
  | fuel + 1, st =>
    if (st.2 : Int) < target then
      caret_seek content target fuel (caret_seek_step content st)
    else some st

/-- The `do { ... } while ((c = getc (...)) != EOF && c != '\n');` loop
that quotes the source line: emits, for each character, the
begin-style marker when the 1-based column reaches `loc.start.column`, the
character itself, and the end-style marker when the column is one before
`loc.end.column`.  `col` is the value of the counter before `++col`. -/
def caret_quote_line (style : String) (start_column end_column : Int) :
    List Char → Nat → List OutEvent
  | [], _ => []
  | c :: rest, col =>
    (if ((col + 1 : Nat) : Int) = start_column then
      [OutEvent.begin_use_class style] else []) ++
    [OutEvent.putc c] ++
    (if ((col + 1 : Nat) : Int) + 1 = end_column then
      [OutEvent.end_use_class style] else []) ++
    caret_quote_line style start_column end_column rest (col + 1)

/-- Conversion of a C `int` to `size_t` (two's complement, 64-bit), used
where `location_caret` compares an `int` against a `size_t`. -/
def int_to_size_t (x : Int) : Nat := (x % (2 ^ 64 : Int)).toNat

/-- `location_caret (loc, style)` from `location.c`.  `open_result` is what
`fopen (loc.start.file, "r")` would yield (`none`: open failure), `st` is
the static `caret_info`, and the returned pair is the list of output events
together with the updated cache.  The outer `Option` is the iteration
budget of the seek loop: `none` means the budget ran out while the loop
guard was still true, i.e. the C code has not yet returned. -/
def location_caret (fuel : Nat) (open_result : Option (List Char))
    (st : caret_info_t) (loc : location) (style : String) :
    Option (List OutEvent × caret_info_t) :=
  match st.source.orElse (fun _ => open_result) with
  | none => some ([], st)
  | some content =>
    if loc.start.column = -1 ∨ loc.start.line = -1 then
      some ([], { st with source := some content })
    else
      let st0 : caret_info_t :=
        if (st.line : Int) ≤ loc.start.line then { st with source := some content }
        else { source := some content, line := 1, offset := 0 }
      match caret_seek content loc.start.line fuel (st0.offset, st0.line) with
      | none => none
      | some (pos, line_reached) =>
        let offset := pos
        match content.get? pos with
        | none =>
          some ([], { source := some content, line := line_reached, offset := offset })
        | some c0 =>
          let line_chars :=
            c0 :: (content.drop (pos + 1)).takeWhile (fun x => x ≠ '\n')
          let consumed :=
            if pos + line_chars.length < content.length then line_chars.length + 1
            else line_chars.length
          let len : Nat :=
            if loc.start.line ≠ loc.end_.line then consumed
            else int_to_size_t loc.end_.column
          let c0n := int_to_size_t loc.start.column
          let marks := if c0n < len then len - c0n else 1
          let events :=
            [OutEvent.putc ' '] ++
            caret_quote_line style loc.start.column loc.end_.column line_chars 0 ++
            [OutEvent.putc '\n'] ++
            [OutEvent.str (String.mk
              (' ' :: List.replicate (loc.start.column - 1).toNat ' '))] ++
            [OutEvent.begin_use_class style] ++
            (OutEvent.putc '^' :: List.replicate (marks - 1) (OutEvent.putc '~')) ++
            [OutEvent.end_use_class style, OutEvent.putc '\n']
          some (events, { source := some content, line := line_reached, offset := offset })

/-- `location_empty (loc)` from `location.c`: all four boundary fields of
both ends are null/zero. -/
def location_empty (loc : location) : Bool :=
  loc.start.file = none && loc.start.line = 0 && loc.start.column = 0 &&
  loc.end_.file = none && loc.end_.line = 0 && loc.end_.column = 0

/-- `strrchr (s, c)` as a splitter: `some (pre, post)` when `c` occurs in
`s`, where `s = pre ++ [c] ++ post` and `c` does not occur in `post`
(the last occurrence); `none` when `c` does not occur. -/
def strrchr_split (c : Char) : List Char → Option (List Char × List Char)
  | [] => none
  | a :: rest =>
    match strrchr_split c rest with
    | some (pre, post) => some (a :: pre, post)
    | none => if a = c then some ([], rest) else none

/-- The digit-consuming part of `atoi`: accumulate decimal digits, stop at
the first non-digit. -/
def atoi_digits : List Char → Int → Int
  | c :: rest, acc =>
    if '0' ≤ c ∧ c ≤ '9' then
      atoi_digits rest (acc * 10 + ((c.toNat : Int) - ('0'.toNat : Int)))
    else acc
  | [], acc => acc

/-- `atoi (s)`: skip leading white space, then an optional sign, then
consume decimal digits (best-effort parsing; 0 when no digits). -/
def atoi (s : List Char) : Int :=
  let s1 := s.dropWhile (fun c =>
    c = ' ' ∨ c = '\t' ∨ c = '\n' ∨ c = Char.ofNat 11 ∨ c = Char.ofNat 12 ∨
    c = '\r')
  match s1 with
  | '-' :: rest => - atoi_digits rest 0
  | '+' :: rest => atoi_digits rest 0
  | _ => atoi_digits s1 0

/-- `boundary_set_from_string (bound, loc_str)` from `location.c`: split at
the last `'.'` (writing `'\0'` there), `atoi` the suffix as the column;
split the remaining prefix at the last `':'`, `atoi` that suffix as the
line; intern the remaining prefix as the file name.  Each `aver (delim)`
assertion failure is modelled as `none`. -/
def boundary_set_from_string (loc_str : List Char) : Option boundary :=
  match strrchr_split '.' loc_str with
  | none => none
  | some (pre, post) =>
    let column := atoi post
    match strrchr_split ':' pre with
    | none => none
    | some (pre2, post2) =>
      some { file := some (String.mk pre2), line := atoi post2, column := column }

/-- A concrete stand-in for `mbsnwidth` used by witnesses and
counterexamples: every byte has display width 1 (and the width of the empty
segment is 0, as for the real function). -/
def unit_width (s : List Char) : Nat := s.length

/-- A concrete stand-in for the quoting collaborator used by witnesses:
quote nothing, render a null file name as the empty string. -/
def plain_quote : Option String → String
  | some s => s
  | none => ""

/-! ### Helper lemmas about `add_column_width` -/

theorem add_column_width_le_intmax (w : List Char → Nat) (column : Int)
    (buf : Option (List Char)) (bufsize : Nat) (h : column ≤ INT_MAX) :
    add_column_width w column buf bufsize ≤ INT_MAX := by
  unfold add_column_width
  cases buf <;> simp only [INT_MAX] at * <;> split <;> omega

theorem le_add_column_width (w : List Char → Nat) (column : Int)
    (buf : Option (List Char)) (bufsize : Nat) (h : column ≤ INT_MAX) :
    column ≤ add_column_width w column buf bufsize := by
  unfold add_column_width
  cases buf <;> simp only [INT_MAX] at * <;> split <;> omega

theorem one_le_add_column_width (w : List Char → Nat) (column : Int)
    (buf : Option (List Char)) (bufsize : Nat) (h : 1 ≤ column) :
    1 ≤ add_column_width w column buf bufsize := by
  unfold add_column_width
  cases buf <;> simp only [INT_MAX] at * <;> split <;> omega

theorem add_column_width_empty (w : List Char → Nat) (column : Int)
    (h : w [] = 0) : add_column_width w column (some []) 0 = column := by
  unfold add_column_width
  simp only [INT_MAX, h]
  omega

/-! ### Helper lemmas about the scanning loop of `location_compute` -/

theorem loop_line_mono (w : List Char → Nat) (t : List Char) :
    ∀ (l c : Int) (p : List Char), l ≤ (location_compute_loop w t l c p).1 := by
  induction t with
  | nil => intro l c p; simp [location_compute_loop]
  | cons a rest ih =>
    intro l c p
    simp only [location_compute_loop]
    split
    · exact le_trans (by split <;> omega) (ih _ 1 [])
    · split
      · exact ih l _ []
      · exact ih l c (p ++ [a])

theorem loop_line_le_intmax (w : List Char → Nat) (t : List Char) :
    ∀ (l c : Int) (p : List Char), l ≤ INT_MAX →
      (location_compute_loop w t l c p).1 ≤ INT_MAX := by
  induction t with
  | nil => intro l c p h; simpa [location_compute_loop] using h
  | cons a rest ih =>
    intro l c p h
    simp only [location_compute_loop]
    split
    · exact ih _ 1 [] (by split <;> omega)
    · split
      · exact ih l _ [] h
      · exact ih l c (p ++ [a]) h

theorem loop_col_le_intmax (w : List Char → Nat) (t : List Char) :
    ∀ (l c : Int) (p : List Char), c ≤ INT_MAX →
      (location_compute_loop w t l c p).2.1 ≤ INT_MAX := by
  induction t with
  | nil => intro l c p h; simpa [location_compute_loop] using h
  | cons a rest ih =>
    intro l c p h
    simp only [location_compute_loop]
    split
    · exact ih _ 1 [] (by simp [INT_MAX])
    · split
      · exact ih l _ []
          (add_column_width_le_intmax w _ none _
            (add_column_width_le_intmax w c _ _ h))
      · exact ih l c (p ++ [a]) h

theorem loop_no_newline (w : List Char → Nat) (t : List Char) :
    ∀ (l c : Int) (p : List Char), '\n' ∉ t → c ≤ INT_MAX →
      (location_compute_loop w t l c p).1 = l ∧
      c ≤ (location_compute_loop w t l c p).2.1 := by
  induction t with
  | nil => intro l c p _ _; simp [location_compute_loop]
  | cons a rest ih =>
    intro l c p hnl hc
    have ha : a ≠ '\n' := fun h => hnl (h ▸ List.mem_cons_self a rest)
    have hrest : '\n' ∉ rest := fun h => hnl (List.mem_cons_of_mem a h)
    simp only [location_compute_loop]
    split
    · exact absurd (by assumption) ha
    · split
      · have h1 : c ≤ add_column_width w c (some p) p.length :=
          le_add_column_width w c _ _ hc
        have h2 : add_column_width w c (some p) p.length ≤ INT_MAX :=
          add_column_width_le_intmax w c _ _ hc
        have h3 := le_add_column_width w (add_column_width w c (some p) p.length)
          none ((8 - ((add_column_width w c (some p) p.length - 1) % 8)).toNat) h2
        have h4 := add_column_width_le_intmax w
          (add_column_width w c (some p) p.length)
          none ((8 - ((add_column_width w c (some p) p.length - 1) % 8)).toNat) h2
        obtain ⟨he, hm⟩ := ih l _ [] hrest h4
        exact ⟨he, le_trans (le_trans h1 h3) hm⟩
      · exact ih l c (p ++ [a]) hrest hc

theorem loop_line_strict_of_newline (w : List Char → Nat) (t : List Char) :
    ∀ (l c : Int) (p : List Char), '\n' ∈ t → l < INT_MAX →
      l < (location_compute_loop w t l c p).1 := by
  induction t with
  | nil => intro l c p h; exact absurd h (List.not_mem_nil '\n')
  | cons a rest ih =>
    intro l c p hmem hl
    simp only [location_compute_loop]
    by_cases ha : a = '\n'
    · rw [if_pos ha, if_pos hl]
      have h1 := loop_line_mono w rest (l + 1) 1 []
      omega
    · rw [if_neg ha]
      have hrest : '\n' ∈ rest := by
        rcases List.mem_cons.mp hmem with h | h
        · exact absurd h.symm ha
        · exact h
      by_cases hb : a = '\t'
      · rw [if_pos hb]
        exact ih l _ [] hrest hl
      · rw [if_neg hb]
        exact ih l c (p ++ [a]) hrest hl

theorem loop_pos (w : List Char → Nat) (t : List Char) :
    ∀ (l c : Int) (p : List Char), 1 ≤ l → 1 ≤ c →
      1 ≤ (location_compute_loop w t l c p).1 ∧
      1 ≤ (location_compute_loop w t l c p).2.1 := by
  induction t with
  | nil => intro l c p hl hc; simpa [location_compute_loop] using ⟨hl, hc⟩
  | cons a rest ih =>
    intro l c p hl hc
    simp only [location_compute_loop]
    split
    · exact ih _ 1 [] (by split <;> omega) le_rfl
    · split
      · exact ih l _ [] hl
          (one_le_add_column_width w _ none _
            (one_le_add_column_width w c _ _ hc))
      · exact ih l c (p ++ [a]) hl hc

/-! ### Claim C9 -/

/-- C9: `location_compute` on an empty token is an identity on the cursor:
the produced Location is zero-width with `start = end =` the original
cursor, the cursor is unchanged, and no overflow warning is reported.
(`mbsnwidth` of a zero-byte segment is 0, hence the hypothesis on `w`.) -/
theorem C9_empty_token_identity (w : List Char → Nat) (cur : boundary)
    (h : w [] = 0) :
    (location_compute w cur []).loc.start = cur ∧
    (location_compute w cur []).loc.end_ = cur ∧
    (location_compute w cur []).cur = cur ∧
    (location_compute w cur []).line_overflow_warned = false ∧
    (location_compute w cur []).column_overflow_warned = false := by
  obtain ⟨f, l, c⟩ := cur
  have hE : add_column_width w c (some []) (List.length ([] : List Char)) = c :=
    add_column_width_empty w c h
  refine ⟨rfl, ?_, ?_, ?_, ?_⟩
  · show (⟨f, l, add_column_width w c (some []) (List.length ([] : List Char))⟩ :
        boundary) = ⟨f, l, c⟩
    rw [hE]
  · show (⟨f, l, add_column_width w c (some []) (List.length ([] : List Char))⟩ :
        boundary) = ⟨f, l, c⟩
    rw [hE]
  · show decide (l = INT_MAX ∧ l ≠ INT_MAX) = false
    simp only [decide_eq_false_iff_not]
    tauto
  · show decide (add_column_width w c (some []) (List.length ([] : List Char)) =
      INT_MAX ∧ c ≠ INT_MAX) = false
    simp only [decide_eq_false_iff_not]
    rintro ⟨h1, h2⟩
    rw [hE] at h1
    exact h2 h1

/-- Witness for C9 at a concrete cursor and width function. -/
theorem C9_empty_token_identity_witness :
    unit_width [] = 0 ∧
    (location_compute unit_width ⟨some "f", 3, 7⟩ []).cur = ⟨some "f", 3, 7⟩ :=
  ⟨rfl, (C9_empty_token_identity unit_width ⟨some "f", 3, 7⟩ rfl).2.2.1⟩

/-! ### Claim C10 -/

/-- C10: `location_compute` preserves positivity of the cursor fields: from
a cursor with `line ≥ 1` and `column ≥ 1`, any token leads to an updated
cursor with `line ≥ 1` and `column ≥ 1`. -/
theorem C10_cursor_positivity (w : List Char → Nat) (cur : boundary)
    (token : List Char) (hl : 1 ≤ cur.line) (hc : 1 ≤ cur.column) :
    1 ≤ (location_compute w cur token).cur.line ∧
    1 ≤ (location_compute w cur token).cur.column := by
  obtain ⟨h1, h2⟩ := loop_pos w token cur.line cur.column [] hl hc
  constructor
  · show 1 ≤ (location_compute_loop w token cur.line cur.column []).1
    exact h1
  · show 1 ≤ add_column_width w
      (location_compute_loop w token cur.line cur.column []).2.1
      (some (location_compute_loop w token cur.line cur.column []).2.2)
      (location_compute_loop w token cur.line cur.column []).2.2.length
    exact one_le_add_column_width w _ _ _ h2

/-- Witness for C10 at a concrete cursor and token. -/
theorem C10_cursor_positivity_witness :
    1 ≤ (3 : Int) ∧ 1 ≤ (7 : Int) ∧
    (1 ≤ (location_compute unit_width ⟨some "f", 3, 7⟩
        ('a' :: 'b' :: '\n' :: '\t' :: 'c' :: [])).cur.line ∧
     1 ≤ (location_compute unit_width ⟨some "f", 3, 7⟩
        ('a' :: 'b' :: '\n' :: '\t' :: 'c' :: [])).cur.column) :=
  ⟨by decide, by decide,
    C10_cursor_positivity unit_width ⟨some "f", 3, 7⟩
      ('a' :: 'b' :: '\n' :: '\t' :: 'c' :: []) (by decide) (by decide)⟩

/-! ### Claim C4 -/

/-- Reduction of the scanning loop on a single-tab token. -/
theorem loop_single_tab (w : List Char → Nat) (l c : Int) :
    location_compute_loop w ['\t'] l c [] =
      (l,
        add_column_width w (add_column_width w c (some []) 0) none
          ((8 - ((add_column_width w c (some []) 0 - 1) % 8)).toNat),
        []) := by
  simp [location_compute_loop]

/-- C4: on a token consisting of a single tab byte, `location_compute`
first flushes the (empty) pending segment, then advances `column` by
`8 - ((column - 1) mod 8)` to the next multiple-of-8 tab stop plus one;
in particular starting at column 1 the result is column 9, and starting at
column 5 the result is column 9.  (`w [] = 0` because `mbsnwidth` of a
zero-byte segment is 0; the upper bound keeps the saturating helper on its
non-overflow path, as a C `int` column always satisfies it when no
saturation happens.) -/
theorem C4_tab_advances_to_next_tab_stop (w : List Char → Nat)
    (h0 : w [] = 0) :
    (∀ cur : boundary, 1 ≤ cur.column → cur.column + 8 ≤ INT_MAX →
      (location_compute w cur ['\t']).cur.column
        = cur.column + (8 - ((cur.column - 1) % 8))) ∧
    (∀ f l, (location_compute w ⟨f, l, 1⟩ ['\t']).cur.column = 9) ∧
    (∀ f l, (location_compute w ⟨f, l, 5⟩ ['\t']).cur.column = 9) := by
  have hgen : ∀ cur : boundary, 1 ≤ cur.column → cur.column + 8 ≤ INT_MAX →
      (location_compute w cur ['\t']).cur.column
        = cur.column + (8 - ((cur.column - 1) % 8)) := by
    intro cur h1 h2
    obtain ⟨f, l, c⟩ := cur
    simp only at h1 h2
    have hc0 : add_column_width w c (some []) 0 = c := add_column_width_empty w c h0
    have htab : add_column_width w c none ((8 - ((c - 1) % 8)).toNat)
        = c + (8 - ((c - 1) % 8)) := by
      unfold add_column_width
      simp only [INT_MAX] at h2 ⊢
      split <;> omega
    show add_column_width w (location_compute_loop w ['\t'] l c []).2.1
      (some (location_compute_loop w ['\t'] l c []).2.2)
      (location_compute_loop w ['\t'] l c []).2.2.length
        = c + (8 - ((c - 1) % 8))
    rw [loop_single_tab, hc0]
    simp only [List.length_nil]
    rw [htab, add_column_width_empty w _ h0]
  refine ⟨hgen, fun f l => ?_, fun f l => ?_⟩
  · have := hgen ⟨f, l, 1⟩ (by show (1 : Int) ≤ 1; decide)
      (by show (1 : Int) + 8 ≤ INT_MAX; decide)
    simp only at this
    norm_num at this
    exact this
  · have := hgen ⟨f, l, 5⟩ (by show (1 : Int) ≤ 5; decide)
      (by show (5 : Int) + 8 ≤ INT_MAX; decide)
    simp only at this
    norm_num at this
    exact this

/-- Witness for C4 at a concrete cursor and width function. -/
theorem C4_tab_witness :
    unit_width [] = 0 ∧
    (location_compute unit_width ⟨some "f", 1, 1⟩ ['\t']).cur.column = 9 ∧
    (location_compute unit_width ⟨some "f", 1, 5⟩ ['\t']).cur.column = 9 :=
  ⟨rfl, (C4_tab_advances_to_next_tab_stop unit_width rfl).2.1 (some "f") 1,
    (C4_tab_advances_to_next_tab_stop unit_width rfl).2.2 (some "f") 1⟩

/-! ### Claim C5 -/

/-- C5: the width-accumulation helper returns the sentinel `INT_MAX`
immediately when the segment's byte length is at least `INT_MAX / 2`;
otherwise it returns `column + width` when the display width fits in
`INT_MAX - column` and `INT_MAX` when it does not. -/
theorem C5_add_column_width_overflow_guard (w : List Char → Nat)
    (column : Int) (buf : List Char) (h0 : 0 ≤ column)
    (h1 : column ≤ INT_MAX) :
    (INT_MAX / 2 ≤ (buf.length : Int) →
      add_column_width w column (some buf) buf.length = INT_MAX) ∧
    ((buf.length : Int) < INT_MAX / 2 →
      ((w buf : Int) ≤ INT_MAX - column →
        add_column_width w column (some buf) buf.length = column + w buf) ∧
      (INT_MAX - column < (w buf : Int) →
        add_column_width w column (some buf) buf.length = INT_MAX)) := by
  unfold add_column_width
  simp only [INT_MAX] at h1 ⊢
  refine ⟨fun hbig => ?_, fun hsmall => ⟨fun hfit => ?_, fun hover => ?_⟩⟩
  all_goals repeat' split
  all_goals omega

/-- Witness for C5 at concrete inputs. -/
theorem C5_add_column_width_witness :
    0 ≤ (5 : Int) ∧ (5 : Int) ≤ INT_MAX ∧
    (((['x', 'y'] : List Char).length : Int) < INT_MAX / 2 ∧
      (unit_width ['x', 'y'] : Int) ≤ INT_MAX - 5 ∧
      add_column_width unit_width 5 (some ['x', 'y'])
        (['x', 'y'] : List Char).length = 5 + unit_width ['x', 'y']) :=
  ⟨by decide, by decide, by decide,  by decide,
    ((C5_add_column_width_overflow_guard unit_width 5 ['x', 'y']
      (by decide) (by decide)).2 (by decide)).1 (by decide)⟩

/-! ### Claim C1 -/

/-- C1 counterexample: the claim "once line (or column) is saturated,
further advancement never decreases it" fails for `column`: with the cursor
column already at the sentinel `INT_MAX`, advancing over a newline resets
the column to 1 — a strict decrease (and, per the code, the normal
newline behaviour). -/
theorem C1_saturated_column_decreases :
    (⟨some "f", 1, INT_MAX⟩ : boundary).column = INT_MAX ∧
    (location_compute unit_width ⟨some "f", 1, INT_MAX⟩ ['\n']).cur.column <
      (⟨some "f", 1, INT_MAX⟩ : boundary).column := by decide

/-- C1 (amended): the "line number overflow" warning is reported iff the
updated line equals `INT_MAX` while the Location's start line was not
already `INT_MAX`, and independently for the column; the line never
decreases, and once it is saturated it stays saturated and its warning is
never re-triggered; once the column is saturated its warning is never
re-triggered, and the column stays saturated for every token containing no
newline (a newline resets the column to 1, the one way a saturated column
decreases). -/
theorem C1_overflow_warning_discipline (w : List Char → Nat)
    (cur : boundary) (token : List Char) :
    ((location_compute w cur token).line_overflow_warned = true ↔
      ((location_compute w cur token).cur.line = INT_MAX ∧
        (location_compute w cur token).loc.start.line ≠ INT_MAX)) ∧
    ((location_compute w cur token).column_overflow_warned = true ↔
      ((location_compute w cur token).cur.column = INT_MAX ∧
        (location_compute w cur token).loc.start.column ≠ INT_MAX)) ∧
    cur.line ≤ (location_compute w cur token).cur.line ∧
    (cur.line = INT_MAX →
      (location_compute w cur token).cur.line = INT_MAX ∧
      (location_compute w cur token).line_overflow_warned = false) ∧
    (cur.column = INT_MAX →
      (location_compute w cur token).column_overflow_warned = false ∧
      ('\n' ∉ token → (location_compute w cur token).cur.column = INT_MAX)) := by
  refine ⟨?_, ?_, ?_, ?_, ?_⟩
  · show decide ((location_compute_loop w token cur.line cur.column []).1 =
        INT_MAX ∧ cur.line ≠ INT_MAX) = true ↔ _
    rw [decide_eq_true_iff]
    exact Iff.rfl
  · show decide (add_column_width w
        (location_compute_loop w token cur.line cur.column []).2.1
        (some (location_compute_loop w token cur.line cur.column []).2.2)
        (location_compute_loop w token cur.line cur.column []).2.2.length =
        INT_MAX ∧ cur.column ≠ INT_MAX) = true ↔ _
    rw [decide_eq_true_iff]
    exact Iff.rfl
  · exact loop_line_mono w token cur.line cur.column []
  · intro hl
    have h1 : (location_compute_loop w token cur.line cur.column []).1 ≤
        INT_MAX := loop_line_le_intmax w token cur.line cur.column [] hl.le
    have h2 := loop_line_mono w token cur.line cur.column []
    constructor
    · show (location_compute_loop w token cur.line cur.column []).1 = INT_MAX
      omega
    · show decide ((location_compute_loop w token cur.line cur.column []).1 =
          INT_MAX ∧ cur.line ≠ INT_MAX) = false
      simp only [decide_eq_false_iff_not]
      rintro ⟨-, hne⟩
      exact hne hl
  · intro hc
    constructor
    · show decide (add_column_width w
          (location_compute_loop w token cur.line cur.column []).2.1
          (some (location_compute_loop w token cur.line cur.column []).2.2)
          (location_compute_loop w token cur.line cur.column []).2.2.length =
          INT_MAX ∧ cur.column ≠ INT_MAX) = false
      simp only [decide_eq_false_iff_not]
      rintro ⟨-, hne⟩
      exact hne hc
    · intro hnl
      have h1 := (loop_no_newline w token cur.line cur.column [] hnl hc.le).2
      have h2 := loop_col_le_intmax w token cur.line cur.column [] hc.le
      have h3 : (location_compute_loop w token cur.line cur.column []).2.1 =
          INT_MAX := by omega
      show add_column_width w
          (location_compute_loop w token cur.line cur.column []).2.1
          (some (location_compute_loop w token cur.line cur.column []).2.2)
          (location_compute_loop w token cur.line cur.column []).2.2.length =
          INT_MAX
      have h4 := le_add_column_width w
        (location_compute_loop w token cur.line cur.column []).2.1
        (some (location_compute_loop w token cur.line cur.column []).2.2)
        (location_compute_loop w token cur.line cur.column []).2.2.length
        (le_of_eq h3)
      have h5 := add_column_width_le_intmax w
        (location_compute_loop w token cur.line cur.column []).2.1
        (some (location_compute_loop w token cur.line cur.column []).2.2)
        (location_compute_loop w token cur.line cur.column []).2.2.length
        (le_of_eq h3)
      omega

/-- Witness for C1 at a concrete saturated cursor and a newline-free
token: no column warning, and the column stays at the sentinel. -/
theorem C1_overflow_warning_witness :
    (location_compute unit_width ⟨some "f", 1, INT_MAX⟩
        ('a' :: [])).column_overflow_warned = false ∧
    (location_compute unit_width ⟨some "f", 1, INT_MAX⟩
        ('a' :: [])).cur.column = INT_MAX := by
  obtain ⟨-, -, -, -, h5⟩ := C1_overflow_warning_discipline unit_width
    ⟨some "f", 1, INT_MAX⟩ ('a' :: [])
  exact ⟨(h5 rfl).1, (h5 rfl).2 (by decide)⟩

/-! ### Claim C3 -/

/-- C3 counterexample: with the cursor line already saturated at `INT_MAX`,
advancing over a newline leaves `end.line = start.line` (the saturating
increment does nothing) while resetting the column to 1, so
`end.column < start.column`: the claim "whenever end.line equals
start.line, end.column ≥ start.column" fails. -/
theorem C3_same_line_column_regression :
    (location_compute unit_width ⟨some "f", INT_MAX, 100⟩ ['\n']).loc.end_.line =
      (location_compute unit_width ⟨some "f", INT_MAX, 100⟩ ['\n']).loc.start.line ∧
    (location_compute unit_width ⟨some "f", INT_MAX, 100⟩ ['\n']).loc.end_.column <
      (location_compute unit_width ⟨some "f", INT_MAX, 100⟩ ['\n']).loc.start.column := by
  decide

/-- C3 (amended): for every cursor whose `line` and `column` are valid
`int` values (at most `INT_MAX`) and every token, the Location produced by
`location_compute` satisfies `end.file = start.file` and
`end.line ≥ start.line`; and whenever `end.line = start.line` *and the
start line is not the overflow sentinel `INT_MAX`*, also
`end.column ≥ start.column`.  (When the start line is already saturated, a
newline keeps `end.line = start.line` but resets the column to 1.) -/
theorem C3_forward_span (w : List Char → Nat) (cur : boundary)
    (token : List Char) (hl : cur.line ≤ INT_MAX) (hc : cur.column ≤ INT_MAX) :
    (location_compute w cur token).loc.end_.file =
      (location_compute w cur token).loc.start.file ∧
    (location_compute w cur token).loc.start.line ≤
      (location_compute w cur token).loc.end_.line ∧
    ((location_compute w cur token).loc.end_.line =
        (location_compute w cur token).loc.start.line →
      (location_compute w cur token).loc.start.line ≠ INT_MAX →
      (location_compute w cur token).loc.start.column ≤
        (location_compute w cur token).loc.end_.column) := by
  refine ⟨rfl, loop_line_mono w token cur.line cur.column [], ?_⟩
  intro heq hne
  have heq' : (location_compute_loop w token cur.line cur.column []).1 =
      cur.line := heq
  have hnl : '\n' ∉ token := by
    intro hmem
    have := loop_line_strict_of_newline w token cur.line cur.column [] hmem
      (lt_of_le_of_ne hl hne)
    omega
  have h1 := (loop_no_newline w token cur.line cur.column [] hnl hc).2
  have h2 := loop_col_le_intmax w token cur.line cur.column [] hc
  show cur.column ≤ add_column_width w
      (location_compute_loop w token cur.line cur.column []).2.1
      (some (location_compute_loop w token cur.line cur.column []).2.2)
      (location_compute_loop w token cur.line cur.column []).2.2.length
  have h3 := le_add_column_width w
    (location_compute_loop w token cur.line cur.column []).2.1
    (some (location_compute_loop w token cur.line cur.column []).2.2)
    (location_compute_loop w token cur.line cur.column []).2.2.length h2
  omega

/-- Witness for C3 at a concrete cursor and a newline-free token,
exercising the same-line column-monotonicity branch. -/
theorem C3_forward_span_witness :
    (3 : Int) ≤ INT_MAX ∧ (7 : Int) ≤ INT_MAX ∧
    ((location_compute unit_width ⟨some "f", 3, 7⟩ ('a' :: 'b' :: [])).loc.end_.file =
      (location_compute unit_width ⟨some "f", 3, 7⟩ ('a' :: 'b' :: [])).loc.start.file ∧
     (location_compute unit_width ⟨some "f", 3, 7⟩ ('a' :: 'b' :: [])).loc.start.column ≤
      (location_compute unit_width ⟨some "f", 3, 7⟩ ('a' :: 'b' :: [])).loc.end_.column) := by
  obtain ⟨hf, -, h3⟩ := C3_forward_span unit_width ⟨some "f", 3, 7⟩
    ('a' :: 'b' :: []) (by decide) (by decide)
  exact ⟨by decide, by decide, hf, h3 (by decide) (by decide)⟩

/-! ### Claim C6 -/

/-- C6: `location_print` converts the exclusive end column to an inclusive
one by subtracting 1, except that an exclusive end column of 0 yields 0;
hence `start=(f,3,5), end=(f,3,5)` renders as `"f:3.5"` and
`start=(f,3,5), end=(f,4,2)` renders as `"f:3.5-4.1"` (and, for the
exception, `start=(f,3,5), end=(f,4,0)` renders as `"f:3.5-4.0"`).
The quoting collaborator is assumed to leave the plain name `"f"`
unchanged, as `quotearg` does for names needing no escapes. -/
theorem C6_location_print_rendering (q : Option String → String)
    (hq : q (some "f") = "f") :
    (∀ loc : location, loc.end_.column ≠ 0 →
      print_end_col loc = loc.end_.column - 1) ∧
    (∀ loc : location, loc.end_.column = 0 → print_end_col loc = 0) ∧
    location_print q ⟨⟨some "f", 3, 5⟩, ⟨some "f", 3, 5⟩⟩ = "f:3.5" ∧
    location_print q ⟨⟨some "f", 3, 5⟩, ⟨some "f", 4, 2⟩⟩ = "f:3.5-4.1" ∧
    location_print q ⟨⟨some "f", 3, 5⟩, ⟨some "f", 4, 0⟩⟩ = "f:3.5-4.0" := by
  refine ⟨fun loc h => ?_, fun loc h => ?_, ?_, ?_, ?_⟩
  · unfold print_end_col
    rw [if_pos h]
  · unfold print_end_col
    rw [if_neg (by simp [h])]
  all_goals
    simp [location_print, print_end_col, hq]
    decide

/-- Witness for C6 with the identity-style quoting function. -/
theorem C6_location_print_witness :
    plain_quote (some "f") = "f" ∧
    location_print plain_quote ⟨⟨some "f", 3, 5⟩, ⟨some "f", 3, 5⟩⟩ = "f:3.5" ∧
    location_print plain_quote ⟨⟨some "f", 3, 5⟩, ⟨some "f", 4, 2⟩⟩ = "f:3.5-4.1" :=
  ⟨rfl, (C6_location_print_rendering plain_quote rfl).2.2.1,
    (C6_location_print_rendering plain_quote rfl).2.2.2.1⟩

/-! ### Claim C8 -/

/-- `strrchr` returns null exactly when the character does not occur. -/
theorem strrchr_split_eq_none (c : Char) (s : List Char) :
    strrchr_split c s = none ↔ c ∉ s := by
  induction s with
  | nil => simp [strrchr_split]
  | cons a rest ih =>
    simp only [strrchr_split]
    cases h : strrchr_split c rest with
    | some p =>
      simp only []
      constructor
      · intro hfalse
        exact absurd hfalse (by simp)
      · intro hmem
        have : c ∈ rest := by
          by_contra hno
          rw [(ih.mpr hno : strrchr_split c rest = none)] at h
          exact Option.noConfusion h
        exact absurd (List.mem_cons_of_mem a this) hmem
    | none =>
      have hrest : c ∉ rest := ih.mp h
      simp only []
      constructor
      · intro heq
        intro hmem
        rcases List.mem_cons.mp hmem with h1 | h1
        · rw [if_pos h1.symm] at heq
          exact Option.noConfusion heq
        · exact hrest h1
      · intro hmem
        rw [if_neg (fun hac => hmem (List.mem_cons.mpr (Or.inl hac.symm)))]

/-- C8: `boundary_set_from_string` on `"myfile.y:12.7"` yields the boundary
`{file := "myfile.y", line := 12, column := 7}` (splitting on the last `'.'`
for the column and on the last `':'` of the remaining prefix for the line),
and it fails the `aver` assertion on every string with no `'.'` and on
every string whose prefix before the last `'.'` has no `':'`. -/
theorem C8_boundary_parse :
    boundary_set_from_string "myfile.y:12.7".toList =
      some ⟨some "myfile.y", 12, 7⟩ ∧
    (∀ s : List Char, '.' ∉ s → boundary_set_from_string s = none) ∧
    (∀ s pre post : List Char, strrchr_split '.' s = some (pre, post) →
      ':' ∉ pre → boundary_set_from_string s = none) := by
  refine ⟨by decide, fun s h => ?_, fun s pre post hsplit h => ?_⟩
  · unfold boundary_set_from_string
    rw [(strrchr_split_eq_none '.' s).mpr h]
  · unfold boundary_set_from_string
    rw [hsplit]
    simp only [(strrchr_split_eq_none ':' pre).mpr h]

/-- Witness for C8 on concrete malformed inputs: a string with no `'.'`
and a string whose part before the last `'.'` has no `':'`. -/
theorem C8_boundary_parse_witness :
    boundary_set_from_string "nodot:12".toList = none ∧
    boundary_set_from_string "nocolon.7".toList = none :=
  ⟨C8_boundary_parse.2.1 "nodot:12".toList (by decide),
    C8_boundary_parse.2.2 "nocolon.7".toList "nocolon".toList "7".toList
      (by decide) (by decide)⟩

/-! ### Claim C7 -/

/-- C7: `location_caret` performs no writes to the output sink when the
backing file cannot be opened (no cached handle and `fopen` fails), and
when `loc.start.column` or `loc.start.line` is the unknown sentinel `-1`
(in which case the successfully opened handle is still cached, as in the
code, but nothing is written). -/
theorem C7_caret_no_writes (fuel : Nat) (open_result : Option (List Char))
    (st : caret_info_t) (loc : location) (style : String) :
    (st.source = none → open_result = none →
      location_caret fuel open_result st loc style = some ([], st)) ∧
    (∀ content : List Char,
      st.source.orElse (fun _ => open_result) = some content →
      (loc.start.column = -1 ∨ loc.start.line = -1) →
      location_caret fuel open_result st loc style =
        some ([], { st with source := some content })) := by
  constructor
  · intro h1 h2
    unfold location_caret
    rw [h1]
    show (match (Option.none.orElse fun _ => open_result :
        Option (List Char)) with
      | none => some (([] : List OutEvent), st)
      | some content => _) = some ([], st)
    rw [h2]
    rfl
  · intro content hc hcond
    unfold location_caret
    rw [hc]
    simp only [if_pos hcond]

/-- Witness for C7: a failed open writes nothing, and a `-1` start column
writes nothing (while caching the opened file). -/
theorem C7_caret_no_writes_witness :
    location_caret 9 none caret_info_init
      ⟨⟨some "f", 2, 3⟩, ⟨some "f", 2, 5⟩⟩ "note" = some ([], caret_info_init) ∧
    location_caret 9 (some ('a' :: [])) caret_info_init
      ⟨⟨some "f", 2, -1⟩, ⟨some "f", 2, 5⟩⟩ "note" =
      some ([], ⟨some ('a' :: []), 1, 0⟩) :=
  ⟨(C7_caret_no_writes 9 none caret_info_init
      ⟨⟨some "f", 2, 3⟩, ⟨some "f", 2, 5⟩⟩ "note").1 rfl rfl,
    (C7_caret_no_writes 9 (some ('a' :: [])) caret_info_init
      ⟨⟨some "f", 2, -1⟩, ⟨some "f", 2, 5⟩⟩ "note").2 ('a' :: []) rfl
      (Or.inl rfl)⟩

/-! ### Claim C2 -/

/-- A list dropped at a present index starts with the element there. -/
theorem drop_eq_cons_of_get? {l : List Char} {i : Nat} {c : Char}
    (h : l.get? i = some c) : l.drop i = c :: l.drop (i + 1) := by
  have hi : i < l.length := by
    rcases List.get?_eq_some.mp h with ⟨hlt, -⟩
    exact hlt
  rw [List.drop_eq_getElem_cons hi]
  have hc : l[i] = c := by
    have he := List.get?_eq_getElem? l i
    rw [he, List.getElem?_eq_getElem hi] at h
    exact Option.some_inj.mp h
  rw [hc]

/-- The seek loop of `location_caret` never exits when the part of the
file at and after the current position does not contain enough newlines to
raise the line counter to the target: whatever the iteration budget, the
guard is still true when it runs out.  (At end of file `getc` keeps
returning `EOF`, which never equals `'\n'`, so the counter freezes.) -/
theorem caret_seek_none_of_few_newlines (content : List Char) (target : Int) :
    ∀ (fuel pos line : Nat),
      ((line + (content.drop pos).countP (fun c => c == '\n') : Nat) : Int)
        < target →
      caret_seek content target fuel (pos, line) = none := by
  intro fuel
  induction fuel with
  | zero =>
    intro pos line h
    have hlt : (line : Int) < target := by omega
    unfold caret_seek
    rw [if_pos hlt]
  | succ n ih =>
    intro pos line h
    have hlt : (line : Int) < target := by omega
    unfold caret_seek
    rw [if_pos hlt]
    cases hg : content.get? pos with
    | some c =>
      have hg2 : content[pos]? = some c := by
        rw [← List.get?_eq_getElem?]
        exact hg
      have hstep : caret_seek_step content (pos, line) =
          (pos + 1, line + if c = '\n' then 1 else 0) := by
        unfold caret_seek_step
        simp [hg, hg2]
      rw [hstep]
      apply ih
      rw [drop_eq_cons_of_get? hg, List.countP_cons] at h
      by_cases hc : c = '\n'
      · simp only [hc, beq_self_eq_true, if_true] at h ⊢
        omega
      · simp only [if_neg hc, beq_eq_false_iff_ne.mpr hc, if_false] at h ⊢
        omega
    | none =>
      have hg2 : content[pos]? = none := by
        rw [← List.get?_eq_getElem?]
        exact hg
      have hstep : caret_seek_step content (pos, line) = (pos, line) := by
        unfold caret_seek_step
        simp [hg, hg2]
      rw [hstep]
      exact ih pos line h

/-- C2 is a code bug: `location_caret` does NOT terminate when
`loc.start.line` exceeds the number of lines in the backing file.  On the
two-line file `"ab\n"` with `loc.start.line = 5` (and known, non-`-1`
start line and column), the seek loop reads `EOF` forever: no iteration
budget ever suffices, i.e. the function never returns. -/
theorem C2_caret_seek_never_returns (fuel : Nat) :
    location_caret fuel (some ('a' :: 'b' :: '\n' :: []))
      caret_info_init ⟨⟨some "f", 5, 1⟩, ⟨some "f", 5, 2⟩⟩ "error" = none := by
  have hseek : caret_seek ('a' :: 'b' :: '\n' :: []) 5 fuel (0, 1) = none := by
    apply caret_seek_none_of_few_newlines
    decide
  simp [location_caret, caret_info_init, Option.orElse, hseek]
